import Mathlib

/-!
Shallow embedding of the client-side customization layer of
`cardconjurer-py` (`creator/static/creator/js/creator.js` and the inline
script of the card view template).  The JavaScript is event-driven glue
code; each DOM event handler is embedded as a pure function from an
explicit page state (plus the per-request constants injected by the
server) to a new page state, with network requests, notifications and
navigation recorded in the state.
-/

/-- A text-box descriptor of the embedded editor's card object
(`card.text[...]`).  JavaScript objects may lack the `name` property, so
it is an `Option`. -/
structure TextEntry where
  name : Option String
  text : String
  deriving Repr, DecidableEq

/-- A mask of a frame descriptor.  `image` is the transient in-memory
image handle (`mask.image`); `rest` stands for the remaining
serializable fields of the mask, which the save flow never touches. -/
structure Mask where
  image : Option String
  rest : String
  deriving Repr, DecidableEq

/-- A frame descriptor (`card.frames[i]`): a possibly present transient
image handle, a sequence of masks, and the remaining serializable
fields (`rest`), untouched by the save flow. -/
structure Frame where
  image : Option String
  masks : List Mask
  rest : String
  deriving Repr, DecidableEq

/-- The in-memory card object owned by the embedded editor: the `text`
mapping (in `Object.keys` order), the `frames` sequence, the `autoFrame`
selection (a JS property that may be absent), and the remaining fields
(`rest`). -/
structure Card where
  text : List TextEntry
  frames : List Frame
  autoFrame : Option String
  rest : String
  deriving Repr, DecidableEq

/-- A JSON value as it appears in the request bodies this layer builds:
`null`, a number, a string, or a serialized card object. -/
inductive JsonVal where
  | null
  | num (n : Int)
  | str (s : String)
  | card (c : Card)
  deriving Repr, DecidableEq

/-- A JSON object body, as an ordered list of key/value pairs
(insertion order of the JS object literal and later assignments). -/
abbrev JsonObj := List (String × JsonVal)

/-- An AJAX POST issued through `$.post(settings)`: target URL, JSON
body, and the `X-CSRFToken` header value. -/
structure HttpRequest where
  url : String
  body : JsonObj
  csrfHeader : String
  deriving Repr, DecidableEq

/-- State of the save button: the jQuery `disabled` property and the
button label set through `.text(...)`. -/
structure ButtonState where
  disabled : Bool
  label : String
  deriving Repr, DecidableEq

/-- Per-request constants the server-rendered page injects, plus the
values the save handler reads from the DOM and from editor hooks at
click time: `getCardName()`, `$("#autoFrame").val()`,
`cardCanvas.toDataURL('image/png')`, `Cookies.get('csrftoken')`. -/
structure SaveEnv where
  cardName : String
  autoFrameVal : String
  canvasPng : String
  cardId : Option Int
  setId : Int
  editingBack : Bool
  csrfToken : String
  saveUrl : String
  deriving Repr, DecidableEq

/-- Observable page state threaded through the save handlers: the global
card object, the save button, the notifications shown so far
(message and duration, from `notify(msg, n)`), the requests issued so
far, and the navigation target (`location.href`) if any was set. -/
structure PageState where
  card : Card
  saveBtn : ButtonState
  notifications : List (String × Int)
  requests : List HttpRequest
  location : Option String
  deriving Repr, DecidableEq

/-- `cardToSave.frames.forEach(frame => \x7b delete frame.image;
frame.masks.forEach(mask => delete mask.image); \x7d)` applied to the
deep copy of the card: every frame's and every mask's `image` key is
removed. -/
def stripImages (c : Card) : Card :=
  { c with frames := c.frames.map fun f =>
      { f with image := none,
               masks := f.masks.map fun m => { m with image := none } } }

/-- The payload card: deep copy of the global card, image handles
stripped, then `cardToSave.autoFrame = $("#autoFrame").val()`. -/
def cardToSave (c : Card) (autoFrameVal : String) : Card :=
  { stripImages c with autoFrame := some autoFrameVal }

/-- The `data` object of the save request: starts as
`\x7b pk: cardId, set: setId \x7d`, then gains `back`/`back_image` when
`EDITING_BACK` and `front`/`front_image` otherwise. -/
def buildSaveBody (env : SaveEnv) (c : Card) : JsonObj :=
  let payload := cardToSave c env.autoFrameVal
  let base : JsonObj :=
    [("pk", match env.cardId with | some n => JsonVal.num n | none => JsonVal.null),
     ("set", JsonVal.num env.setId)]
  if env.editingBack then
    base ++ [("back", JsonVal.card payload), ("back_image", JsonVal.str env.canvasPng)]
  else
    base ++ [("front", JsonVal.card payload), ("front_image", JsonVal.str env.canvasPng)]

/-- The save-button click handler (`saveBtn.click(() => ...)`).  If the
name from `getCardName()` is falsy or the literal default "unnamed", it
notifies and returns; otherwise it disables and relabels the button,
builds the payload from a deep copy of the card, and issues the POST. -/
def saveBtnClick (env : SaveEnv) (s : PageState) : PageState :=
  if env.cardName = "" ∨ env.cardName = "unnamed" then
    { s with notifications :=
        s.notifications ++ [("You must give your card a name to save it!", 5)] }
  else
    { s with
        saveBtn := { disabled := true, label := "Saving..." },
        requests := s.requests ++
          [{ url := env.saveUrl,
             body := buildSaveBody env s.card,
             csrfHeader := env.csrfToken }] }

/-- Outcome of the save POST as the handlers see it: `.done` receives
the response body's `view_url`; `.fail` receives nothing relevant. -/
inductive SaveResponse where
  | done (view_url : String)
  | fail
  deriving Repr, DecidableEq

/-- The `.done`/`.fail` callbacks of the save POST: on success relabel
the button "Saved!" and set `location.href` to the response's
`view_url`; on failure re-enable the button, relabel it "Save Card" and
show the error notification.  No further request is issued. -/
def saveRequestComplete (resp : SaveResponse) (s : PageState) : PageState :=
  match resp with
  | SaveResponse.done url =>
      { s with saveBtn := { s.saveBtn with label := "Saved!" },
               location := some url }
  | SaveResponse.fail =>
      { s with saveBtn := { disabled := false, label := "Save Card" },
               notifications :=
                 s.notifications ++ [("There was an error saving your card.", 5)] }

/-- Decidable check that a card carries no image handle under any frame
or mask. -/
def cardImagesStripped (c : Card) : Bool :=
  c.frames.all fun f => f.image.isNone && f.masks.all fun m => m.image.isNone

/-- Decidable check that no card value embedded in a JSON body carries
an image handle. -/
def bodyImagesStripped (b : JsonObj) : Bool :=
  b.all fun kv =>
    match kv.2 with
    | JsonVal.card c => cardImagesStripped c
    | _ => true

/-- `sub` occurs as a contiguous run of `s` (the semantics of
JavaScript `String.prototype.includes`). -/
def subOccurs (sub : List Char) : List Char → Bool
  | [] => sub.isEmpty
  | c :: rest => sub.isPrefixOf (c :: rest) || subOccurs sub rest

/-- `s.includes(sub)` on strings. -/
def strIncludes (s sub : String) : Bool :=
  subOccurs sub.toList s.toList

/-- JavaScript indexing `Object.keys(card.text)[i]` followed by the
`card.text[...]` lookup: yields the i-th entry when `0 ≤ i < length`,
and the undefined value (`none`) otherwise. -/
def jsIndex (m : List TextEntry) (i : Int) : Option TextEntry :=
  if 0 ≤ i then m.get? i.toNat else none

/-- The body the Scryfall symbology endpoint answers with: success
carries an optional `cost` string; failure carries an HTTP status and an
optional parsed error body whose `details` property may be absent. -/
structure ScryError where
  status : Int
  responseJSON : Option (Option String)
  deriving Repr, DecidableEq

/-- Result of awaiting `$.get` on the parse-mana URL. -/
inductive ManaResult where
  | ok (cost : Option String)
  | err (e : ScryError)
  deriving Repr, DecidableEq

/-- JS string interpolation of a possibly-undefined value: an absent
`details` property prints as "undefined". -/
def jsShowOpt : Option String → String
  | some s => s
  | none => "undefined"

/-- JS truthiness of `result.cost`: false when the property is absent
and when it is the empty string. -/
def jsTruthyStr : Option String → Bool
  | some s => s ≠ ""
  | none => false

/-- The `console.error` message of the catch branch: the base message
with the status, extended with the details only when `error.responseJSON`
is truthy (it is an object, hence truthy whenever present). -/
def scryErrMsg (e : ScryError) : String :=
  let base := "Error parsing mana cost with Scryfall API: " ++ toString e.status
  match e.responseJSON with
  | some d => base ++ " - " ++ jsShowOpt d
  | none => base

/-- Observable effects of one run of `checkScryfall`: the query text of
the issued lookup if any, the value written into `#text-editor` if any,
whether `textEdited()` was invoked, the `console.error` message if any,
and whether the run threw (a TypeError on an undefined descriptor). -/
structure ScryEffects where
  request : Option String
  fieldWrite : Option String
  textEditedCalled : Bool
  logged : Option String
  threw : Bool
  deriving Repr, DecidableEq

/-- The run that threw before doing anything else. -/
def threwEffects : ScryEffects :=
  { request := none, fieldWrite := none, textEditedCalled := false,
    logged := none, threw := true }

/-- The run that did nothing (selected field is not the mana cost). -/
def noEffects : ScryEffects :=
  { request := none, fieldWrite := none, textEditedCalled := false,
    logged := none, threw := false }

/-- The debounce-fired handler `checkScryfall`, parameterized by the
Scryfall API as a function from the query text to its result.  It reads
`card.text[Object.keys(card.text)[selectedTextIndex]]` with no guard:
an out-of-range index leaves the descriptor undefined and the `.name`
access throws; a present descriptor without a `name` property makes
`.includes` throw.  Otherwise, when the name contains "Mana Cost", the
lookup is awaited; on error the diagnostic is logged and nothing else
happens; on success the field is written and `textEdited()` called only
when `result.cost` is truthy. -/
def checkScryfall (m : List TextEntry) (i : Int) (api : String → ManaResult) :
    ScryEffects :=
  match jsIndex m i with
  | none => threwEffects
  | some e =>
    match e.name with
    | none => threwEffects
    | some nm =>
      if strIncludes nm "Mana Cost" then
        match api e.text with
        | ManaResult.err er =>
            { request := some e.text, fieldWrite := none,
              textEditedCalled := false, logged := some (scryErrMsg er),
              threw := false }
        | ManaResult.ok cost =>
            if jsTruthyStr cost then
              { request := some e.text, fieldWrite := cost,
                textEditedCalled := true, logged := none, threw := false }
            else
              { request := some e.text, fieldWrite := none,
                textEditedCalled := false, logged := none, threw := false }
      else noEffects

/-- The query of the lookup `checkScryfall` issues, independent of the
API outcome: present exactly when the selected descriptor exists, has a
name, and the name contains "Mana Cost". -/
def scryfallRequest (m : List TextEntry) (i : Int) : Option String :=
  match jsIndex m i with
  | none => none
  | some e =>
    match e.name with
    | none => none
    | some nm => if strIncludes nm "Mana Cost" then some e.text else none

/-- Replace the entry at position `n` (identity when out of range). -/
def modifyAt (l : List TextEntry) (n : Nat) (f : TextEntry → TextEntry) :
    List TextEntry :=
  match l, n with
  | [], _ => []
  | e :: rest, 0 => f e :: rest
  | e :: rest, n + 1 => e :: modifyAt rest n f

/-- State relevant to the mana-cost debounce: the card's text mapping,
the editor's `selectedTextIndex`, and the pending `ScryfallTimer`
deadline in milliseconds of absolute time (`none` when no timer is
pending, the initial `ScryfallTimer = null`). -/
structure EditorState where
  textMap : List TextEntry
  selectedIndex : Int
  timer : Option Nat
  deriving Repr, DecidableEq

/-- The embedded editor's own input handler writes the `#text-editor`
value into the selected entry's `text`. -/
def writeSelectedText (m : List TextEntry) (i : Int) (x : String) :
    List TextEntry :=
  if 0 ≤ i then modifyAt m i.toNat (fun e => { e with text := x }) else m

/-- One `input` event on `#text-editor` at absolute time `t` with new
field text `x`: the editor updates the selected entry, and
`restartScryfallTimer` runs `clearTimeout(ScryfallTimer)` followed by
`ScryfallTimer = setTimeout(checkScryfall, 1000)`. -/
def inputEvent (s : EditorState) (t : Nat) (x : String) : EditorState :=
  { textMap := writeSelectedText s.textMap s.selectedIndex x,
    selectedIndex := s.selectedIndex,
    timer := some (t + 1000) }

/-- The lookup query the pending timer would issue if it fired in state
`s` (none when no lookup would be made). -/
def fireRequest (s : EditorState) : Option String :=
  scryfallRequest s.textMap s.selectedIndex

/-- The lookups issued by the pending timer before an event at time
`t`: the timer fires when its deadline has passed. -/
def fireBefore (s : EditorState) (t : Nat) : List String :=
  match s.timer with
  | some d => if d ≤ t then (fireRequest s).toList else []
  | none => []

/-- Process a chronological list of input events `(time, text)`.
Before each event, the pending timer fires if its deadline has passed,
issuing its lookup (if any) against the state at fire time.  Returns
the final state and the queries of the lookups issued during the run. -/
def runEvents : EditorState → List (Nat × String) → EditorState × List String
  | s, [] => (s, [])
  | s, (t, x) :: rest =>
    let next := runEvents (inputEvent s t x) rest
    (next.1, fireBefore s t ++ next.2)

/-- After the last event, time passes the pending deadline and the
timer fires once, issuing its lookup if any. -/
def finalFire (s : EditorState) : List String :=
  match s.timer with
  | some _ => (fireRequest s).toList
  | none => []

/-- All consecutive gaps of the event sequence are under the 1000 ms
debounce window. -/
def gapsUnderDebounce : List (Nat × String) → Bool
  | [] => true
  | [_] => true
  | (t1, _) :: (t2, x2) :: rest =>
    decide (t2 < t1 + 1000) && gapsUnderDebounce ((t2, x2) :: rest)

/-- The fixed option list of the replacement rarity dropdown. -/
def RARITIES : List (String × String) :=
  [("", "Select Rarity"),
   ("C", "Common"),
   ("U", "Uncommon"),
   ("R", "Rare"),
   ("M", "Mythic Rare")]

/-- State relevant to the rarity widgets: the dropdown's value, the
`#info-rarity` field, and how many times `bottomInfoEdited()` has been
invoked. -/
structure RarityUI where
  dropdownVal : String
  infoRarity : String
  bottomInfoEditedCount : Nat
  deriving Repr, DecidableEq

/-- JavaScript `toUpperCase()` on the ASCII values at play: uppercase
every character. -/
def jsToUpper (s : String) : String :=
  String.mk (s.data.map Char.toUpper)

/-- User selects option value `v` in the dropdown: the DOM sets its
value, and the `input` handler writes `$(this).val().toUpperCase()`
into `#info-rarity` and calls `bottomInfoEdited()`. -/
def rarityDropdownInput (s : RarityUI) (v : String) : RarityUI :=
  { dropdownVal := v,
    infoRarity := jsToUpper v,
    bottomInfoEditedCount := s.bottomInfoEditedCount + 1 }

/-- User edits `#info-rarity` directly: no handler propagates it back,
so only the field itself changes. -/
def infoRarityInput (s : RarityUI) (v : String) : RarityUI :=
  { s with infoRarity := v }

/-- State relevant to the card view page's remove-back-face button: the
requests issued and whether `location.reload()` was called. -/
structure RemovePage where
  requests : List HttpRequest
  reloaded : Bool
  deriving Repr, DecidableEq

/-- The `#remove-back-btn` click handler: when `window.confirm` is
accepted, POST `JSON.stringify(\x7b\x7d)` (the empty JSON object) with
the CSRF header to the remove-back-face endpoint; otherwise do
nothing. -/
def removeBackClick (confirmed : Bool) (csrf url : String) (s : RemovePage) :
    RemovePage :=
  if confirmed then
    { s with requests :=
        s.requests ++ [{ url := url, body := [], csrfHeader := csrf }] }
  else s

/-- The `.done` callback of the remove-back POST: reload the page. -/
def removeBackDone (s : RemovePage) : RemovePage :=
  { s with reloaded := true }

/-- One debounce step as a fold function over the event list. -/
def debStep (st : EditorState) (p : Nat × String) : EditorState :=
  inputEvent st p.1 p.2

/-- Sample text entry: the mana-cost text box. -/
def sampleEntry : TextEntry := { name := some "Mana Cost", text := "2WW" }

/-- Sample mask holding a transient image handle. -/
def sampleMask : Mask := { image := some "maskimg", rest := "m0" }

/-- Sample frame holding a transient image handle and one mask. -/
def sampleFrame : Frame :=
  { image := some "frameimg", masks := [sampleMask], rest := "f0" }

/-- Sample card with one text entry and one frame. -/
def sampleCard : Card :=
  { text := [sampleEntry], frames := [sampleFrame], autoFrame := none,
    rest := "c0" }

/-- Sample environment whose card name is still the literal default. -/
def sampleEnv : SaveEnv :=
  { cardName := "unnamed", autoFrameVal := "M15Regular-1",
    canvasPng := "data:image/png;base64,AAAA", cardId := some 7, setId := 3,
    editingBack := false, csrfToken := "tok", saveUrl := "/api/card/7/" }

/-- Sample environment with a proper card name. -/
def sampleEnvNamed : SaveEnv := { sampleEnv with cardName := "Grizzly Bears" }

/-- Sample page state before any click. -/
def samplePage : PageState :=
  { card := sampleCard, saveBtn := { disabled := false, label := "Save Card" },
    notifications := [], requests := [], location := none }

/-- Sample Scryfall API that always succeeds with a nonempty cost. -/
def sampleApi : String → ManaResult := fun q => ManaResult.ok (some ("ok:" ++ q))

/-- Sample editor state with the mana-cost box selected and no pending
timer. -/
def sampleEditor : EditorState :=
  { textMap := [{ name := some "Mana Cost", text := "" }], selectedIndex := 0,
    timer := none }

/-- Sample rapid event sequence (all gaps under 1000 ms). -/
def sampleEvents : List (Nat × String) := [(0, "1"), (400, "1W"), (900, "2W")]

theorem cardImagesStripped_cardToSave (c : Card) (v : String) :
    cardImagesStripped (cardToSave c v) = true := by
  simp [cardToSave, stripImages, cardImagesStripped, List.all_map,
    Function.comp, List.all_eq_true]

theorem buildSaveBody_stripped (env : SaveEnv) (c : Card) :
    bodyImagesStripped (buildSaveBody env c) = true := by
  unfold buildSaveBody bodyImagesStripped
  cases hid : env.cardId <;> cases hb : env.editingBack <;>
    simp [hid, hb, cardImagesStripped_cardToSave]

/-- C1: the body of every request the save-button click issues carries
no image handle under any frame or any mask of the payload card. -/
theorem save_click_requests_images_stripped (env : SaveEnv) (s : PageState) :
    (((saveBtnClick env s).requests.drop s.requests.length).all
      fun r => bodyImagesStripped r.body) = true := by
  unfold saveBtnClick
  split
  · simp
  · simp [buildSaveBody_stripped]

/-- C2: every request the save-button click issues has the
`buildSaveBody` body, which always carries the `pk` and `set` keys and
exactly the `back`/`back_image` pair when `EDITING_BACK` holds and
exactly the `front`/`front_image` pair otherwise, never keys of both
pairs. -/
theorem save_request_keys (env : SaveEnv) (s : PageState) :
    (∀ r ∈ (saveBtnClick env s).requests.drop s.requests.length,
        r.body = buildSaveBody env s.card) ∧
    "pk" ∈ (buildSaveBody env s.card).map Prod.fst ∧
    "set" ∈ (buildSaveBody env s.card).map Prod.fst ∧
    ("back" ∈ (buildSaveBody env s.card).map Prod.fst ↔ env.editingBack = true) ∧
    ("back_image" ∈ (buildSaveBody env s.card).map Prod.fst ↔ env.editingBack = true) ∧
    ("front" ∈ (buildSaveBody env s.card).map Prod.fst ↔ env.editingBack = false) ∧
    ("front_image" ∈ (buildSaveBody env s.card).map Prod.fst ↔ env.editingBack = false) ∧
    (buildSaveBody env s.card).map Prod.fst =
      (if env.editingBack then ["pk", "set", "back", "back_image"]
       else ["pk", "set", "front", "front_image"]) := by
  constructor
  · unfold saveBtnClick
    split
    · simp
    · simp
  · unfold buildSaveBody
    cases h : env.editingBack <;> simp [h]

/-- C2 witness: the concrete front-face save body has exactly the
`pk`, `set`, `front`, `front_image` keys. -/
theorem save_request_keys_witness :
    (buildSaveBody sampleEnvNamed sampleCard).map Prod.fst =
      ["pk", "set", "front", "front_image"] := by
  have h := (save_request_keys sampleEnvNamed samplePage).2.2.2.2.2.2.2
  simpa [samplePage, sampleEnvNamed, sampleEnv] using h

/-- C3: a save-button click with an empty or literal-default card name
only appends the validation notification: the button, the request list
and everything else are unchanged, so no network request is issued. -/
theorem save_click_invalid_name (env : SaveEnv) (s : PageState)
    (h : env.cardName = "" ∨ env.cardName = "unnamed") :
    saveBtnClick env s =
      { s with notifications :=
          s.notifications ++ [("You must give your card a name to save it!", 5)] } ∧
    (saveBtnClick env s).requests = s.requests ∧
    (saveBtnClick env s).saveBtn = s.saveBtn := by
  refine ⟨?_, ?_, ?_⟩ <;> simp [saveBtnClick, h]

/-- C3 witness: clicking save on the sample page with the default name
"unnamed" leaves the request list empty and the button untouched. -/
theorem save_click_invalid_name_witness :
    (saveBtnClick sampleEnv samplePage).requests = samplePage.requests ∧
    (saveBtnClick sampleEnv samplePage).saveBtn = samplePage.saveBtn :=
  (save_click_invalid_name sampleEnv samplePage (Or.inr rfl)).2

/-- C4: after a save-button click, the `.done` callback navigates to
exactly the response's `view_url` and issues nothing further; the
`.fail` callback restores the button to its original enabled "Save
Card" state, navigates nowhere, issues nothing further, and appends the
transient error notification. -/
theorem save_complete_spec (env : SaveEnv) (s0 : PageState) (url : String)
    (hbtn : s0.saveBtn = { disabled := false, label := "Save Card" }) :
    (saveRequestComplete (SaveResponse.done url) (saveBtnClick env s0)).location
        = some url ∧
    (saveRequestComplete (SaveResponse.done url) (saveBtnClick env s0)).requests
        = (saveBtnClick env s0).requests ∧
    (saveRequestComplete SaveResponse.fail (saveBtnClick env s0)).saveBtn
        = s0.saveBtn ∧
    (saveRequestComplete SaveResponse.fail (saveBtnClick env s0)).location
        = (saveBtnClick env s0).location ∧
    (saveRequestComplete SaveResponse.fail (saveBtnClick env s0)).requests
        = (saveBtnClick env s0).requests ∧
    (saveRequestComplete SaveResponse.fail (saveBtnClick env s0)).notifications
        = (saveBtnClick env s0).notifications ++
            [("There was an error saving your card.", 5)] := by
  refine ⟨rfl, rfl, ?_, rfl, rfl, rfl⟩
  rw [hbtn]
  rfl

/-- C4 witness: on the sample page, a failed save restores the
original button and a successful save navigates to the returned URL. -/
theorem save_complete_spec_witness :
    (saveRequestComplete (SaveResponse.done "/card/7/")
        (saveBtnClick sampleEnvNamed samplePage)).location = some "/card/7/" ∧
    (saveRequestComplete SaveResponse.fail
        (saveBtnClick sampleEnvNamed samplePage)).saveBtn = samplePage.saveBtn := by
  have h := save_complete_spec sampleEnvNamed samplePage "/card/7/" rfl
  exact ⟨h.1, h.2.2.1⟩

/-- C9: the save flow never mutates the global in-memory card object:
neither the click handler (which strips images only on the deep copy)
nor either completion callback changes any field of `card`. -/
theorem save_flow_card_unchanged (env : SaveEnv) (s : PageState)
    (r : SaveResponse) :
    (saveBtnClick env s).card = s.card ∧
    (saveRequestComplete r s).card = s.card := by
  constructor
  · unfold saveBtnClick
    split <;> rfl
  · cases r <;> rfl

/-- C7: the replacement rarity dropdown offers exactly the five fixed
options; selecting a value writes its uppercased form (itself, for the
five option values, the blank one giving the empty string) into
`#info-rarity` and fires `bottomInfoEdited()` once; editing the info
field directly never changes the dropdown. -/
theorem rarity_dropdown_spec :
    RARITIES = [("", "Select Rarity"), ("C", "Common"), ("U", "Uncommon"),
      ("R", "Rare"), ("M", "Mythic Rare")] ∧
    RARITIES.length = 5 ∧
    (∀ (s : RarityUI) (v : String),
      (rarityDropdownInput s v).infoRarity = jsToUpper v ∧
      (rarityDropdownInput s v).dropdownVal = v ∧
      (rarityDropdownInput s v).bottomInfoEditedCount =
        s.bottomInfoEditedCount + 1) ∧
    (∀ p ∈ RARITIES, jsToUpper p.1 = p.1) ∧
    (∀ (s : RarityUI) (v : String),
      (infoRarityInput s v).dropdownVal = s.dropdownVal) := by
  refine ⟨rfl, rfl, fun s v => ⟨rfl, rfl, rfl⟩, ?_, fun s v => rfl⟩
  decide

/-- C7 witness: "C" is one of the five option values and selecting it
writes exactly "C" into the info field. -/
theorem rarity_dropdown_spec_witness :
    ("C", "Common") ∈ RARITIES ∧
    (rarityDropdownInput ⟨"", "P", 0⟩ "C").infoRarity = "C" := by
  have h := rarity_dropdown_spec
  refine ⟨by decide, ?_⟩
  rw [(h.2.2.1 ⟨"", "P", 0⟩ "C").1]
  exact h.2.2.2.1 ("C", "Common") (by decide)

/-- C8: a confirmed remove-back-face click appends exactly one POST
whose body is the empty JSON object with the CSRF header, and the
`.done` callback reloads the page; a declined click changes nothing. -/
theorem remove_back_click_spec (csrf url : String) (s : RemovePage) :
    removeBackClick true csrf url s =
      { s with requests :=
          s.requests ++ [{ url := url, body := [], csrfHeader := csrf }] } ∧
    ((removeBackClick true csrf url s).requests.drop s.requests.length) =
      [{ url := url, body := [], csrfHeader := csrf }] ∧
    removeBackClick false csrf url s = s ∧
    (removeBackDone (removeBackClick true csrf url s)).reloaded = true ∧
    (removeBackDone (removeBackClick true csrf url s)).requests =
      (removeBackClick true csrf url s).requests := by
  refine ⟨rfl, ?_, rfl, rfl, rfl⟩
  simp [removeBackClick]

theorem checkScryfall_of_jsIndex_none (m : List TextEntry) (i : Int)
    (api : String → ManaResult) (hj : jsIndex m i = none) :
    checkScryfall m i api = threwEffects := by
  simp [checkScryfall, hj]

theorem checkScryfall_of_name_none (m : List TextEntry) (i : Int)
    (api : String → ManaResult) (e : TextEntry)
    (hj : jsIndex m i = some e) (hn : e.name = none) :
    checkScryfall m i api = threwEffects := by
  simp [checkScryfall, hj, hn]

theorem checkScryfall_of_not_manacost (m : List TextEntry) (i : Int)
    (api : String → ManaResult) (e : TextEntry) (nm : String)
    (hj : jsIndex m i = some e) (hn : e.name = some nm)
    (hinc : ¬ strIncludes nm "Mana Cost" = true) :
    checkScryfall m i api = noEffects := by
  simp [checkScryfall, hj, hn, hinc]

theorem checkScryfall_of_manacost (m : List TextEntry) (i : Int)
    (api : String → ManaResult) (e : TextEntry) (nm : String)
    (hj : jsIndex m i = some e) (hn : e.name = some nm)
    (hinc : strIncludes nm "Mana Cost" = true) :
    checkScryfall m i api =
      match api e.text with
      | ManaResult.err er =>
          { request := some e.text, fieldWrite := none,
            textEditedCalled := false, logged := some (scryErrMsg er),
            threw := false }
      | ManaResult.ok cost =>
          if jsTruthyStr cost then
            { request := some e.text, fieldWrite := cost,
              textEditedCalled := true, logged := none, threw := false }
          else
            { request := some e.text, fieldWrite := none,
              textEditedCalled := false, logged := none, threw := false } := by
  simp [checkScryfall, hj, hn, hinc]

theorem checkScryfall_of_manacost_err (m : List TextEntry) (i : Int)
    (api : String → ManaResult) (e : TextEntry) (nm : String) (er : ScryError)
    (hj : jsIndex m i = some e) (hn : e.name = some nm)
    (hinc : strIncludes nm "Mana Cost" = true)
    (har : api e.text = ManaResult.err er) :
    checkScryfall m i api =
      { request := some e.text, fieldWrite := none, textEditedCalled := false,
        logged := some (scryErrMsg er), threw := false } := by
  simp [checkScryfall, hj, hn, hinc, har]

theorem checkScryfall_of_manacost_ok (m : List TextEntry) (i : Int)
    (api : String → ManaResult) (e : TextEntry) (nm : String)
    (cost : Option String)
    (hj : jsIndex m i = some e) (hn : e.name = some nm)
    (hinc : strIncludes nm "Mana Cost" = true)
    (har : api e.text = ManaResult.ok cost) :
    checkScryfall m i api =
      if jsTruthyStr cost then
        { request := some e.text, fieldWrite := cost, textEditedCalled := true,
          logged := none, threw := false }
      else
        { request := some e.text, fieldWrite := none,
          textEditedCalled := false, logged := none, threw := false } := by
  simp [checkScryfall, hj, hn, hinc, har]

theorem checkScryfall_not_threw (m : List TextEntry) (i : Int)
    (api : String → ManaResult) (e : TextEntry) (nm : String)
    (hj : jsIndex m i = some e) (hn : e.name = some nm) :
    (checkScryfall m i api).threw = false := by
  by_cases hinc : strIncludes nm "Mana Cost" = true
  · rw [checkScryfall_of_manacost m i api e nm hj hn hinc]
    cases har : api e.text with
    | err er => rfl
    | ok cost => by_cases htr : jsTruthyStr cost = true <;> simp [htr]
  · rw [checkScryfall_of_not_manacost m i api e nm hj hn hinc]
    rfl

theorem jsIndex_eq_some (m : List TextEntry) (i : Int) (e : TextEntry) :
    jsIndex m i = some e ↔ 0 ≤ i ∧ m.get? i.toNat = some e := by
  unfold jsIndex
  by_cases hi : 0 ≤ i <;> simp [hi]

/-- C10: `checkScryfall` does not throw exactly when
`selectedTextIndex` is a valid index into the text mapping and the
entry there has a `name` field; whenever it throws, the throw comes
before any lookup request is made. -/
theorem checkScryfall_throw_iff (m : List TextEntry) (i : Int)
    (api : String → ManaResult) :
    ((checkScryfall m i api).threw = false ↔
      0 ≤ i ∧ i.toNat < m.length ∧
        ∃ e, m.get? i.toNat = some e ∧ e.name.isSome = true) ∧
    ((checkScryfall m i api).threw = true →
      (checkScryfall m i api).request = none) := by
  constructor
  · constructor
    · intro hnot
      cases hj : jsIndex m i with
      | none =>
        rw [checkScryfall_of_jsIndex_none m i api hj] at hnot
        exact absurd hnot (by simp [threwEffects])
      | some e =>
        cases hn : e.name with
        | none =>
          rw [checkScryfall_of_name_none m i api e hj hn] at hnot
          exact absurd hnot (by simp [threwEffects])
        | some nm =>
          obtain ⟨hi, hg⟩ := (jsIndex_eq_some m i e).mp hj
          obtain ⟨hlt, -⟩ := List.get?_eq_some.mp hg
          exact ⟨hi, hlt, e, hg, by simp [hn]⟩
    · rintro ⟨hi, hlen, e, hg, hname⟩
      obtain ⟨nm, hn⟩ := Option.isSome_iff_exists.mp hname
      exact checkScryfall_not_threw m i api e nm
        ((jsIndex_eq_some m i e).mpr ⟨hi, hg⟩) hn
  · intro hthrew
    cases hj : jsIndex m i with
    | none =>
      rw [checkScryfall_of_jsIndex_none m i api hj]
      rfl
    | some e =>
      cases hn : e.name with
      | none =>
        rw [checkScryfall_of_name_none m i api e hj hn]
        rfl
      | some nm =>
        rw [checkScryfall_not_threw m i api e nm hj hn] at hthrew
        exact Bool.noConfusion hthrew

theorem jsTruthyStr_iff (c : Option String) :
    jsTruthyStr c = true ↔ ∃ s, c = some s ∧ s ≠ "" := by
  cases c <;> simp [jsTruthyStr]

/-- C6: the field is written and `textEdited()` invoked exactly when
the selected descriptor names the mana-cost field, the lookup succeeds
and the response carries a truthy `cost` string (which is then the
written value); on lookup failure the logged diagnostic extends the
fixed message with the HTTP status and, when the error body carries
`details`, with that detail, and the field stays untouched. -/
theorem checkScryfall_effects_spec (m : List TextEntry) (i : Int)
    (api : String → ManaResult) :
    ((checkScryfall m i api).textEditedCalled = true ↔
      ∃ e nm c, jsIndex m i = some e ∧ e.name = some nm ∧
        strIncludes nm "Mana Cost" = true ∧
        api e.text = ManaResult.ok (some c) ∧ c ≠ "") ∧
    ((checkScryfall m i api).fieldWrite.isSome
        = (checkScryfall m i api).textEditedCalled) ∧
    (∀ e nm c, jsIndex m i = some e → e.name = some nm →
      strIncludes nm "Mana Cost" = true →
      api e.text = ManaResult.ok (some c) → c ≠ "" →
      (checkScryfall m i api).fieldWrite = some c) ∧
    (∀ e nm er, jsIndex m i = some e → e.name = some nm →
      strIncludes nm "Mana Cost" = true → api e.text = ManaResult.err er →
      (checkScryfall m i api).fieldWrite = none ∧
      (checkScryfall m i api).textEditedCalled = false ∧
      (checkScryfall m i api).logged = some (scryErrMsg er) ∧
      ∃ tail, scryErrMsg er =
          "Error parsing mana cost with Scryfall API: "
            ++ toString er.status ++ tail ∧
        ∀ d, er.responseJSON = some (some d) → tail = " - " ++ d) := by
  cases hj : jsIndex m i with
  | none =>
    rw [checkScryfall_of_jsIndex_none m i api hj]
    refine ⟨by simp [threwEffects, hj], rfl, ?_, ?_⟩
    · intro e nm c hje
      exact Option.noConfusion hje
    · intro e nm er hje
      exact Option.noConfusion hje
  | some e =>
    cases hn : e.name with
    | none =>
      rw [checkScryfall_of_name_none m i api e hj hn]
      refine ⟨by simp [threwEffects, hj, hn], rfl, ?_, ?_⟩
      · intro e' nm' c hje hn' hinc' har' hne
        cases Option.some.inj hje
        rw [hn] at hn'
        exact Option.noConfusion hn'
      · intro e' nm' er' hje hn' hinc' har'
        cases Option.some.inj hje
        rw [hn] at hn'
        exact Option.noConfusion hn'
    | some nm =>
      by_cases hinc : strIncludes nm "Mana Cost" = true
      · cases har : api e.text with
        | err er =>
          rw [checkScryfall_of_manacost_err m i api e nm er hj hn hinc har]
          refine ⟨?_, rfl, ?_, ?_⟩
          · constructor
            · intro h
              exact absurd h (by simp)
            · rintro ⟨e', nm', c, hje, hn', hinc', har', hne⟩
              cases Option.some.inj hje
              rw [har] at har'
              exact ManaResult.noConfusion har'
          · intro e' nm' c hje hn' hinc' har' hne
            cases Option.some.inj hje
            rw [har] at har'
            exact ManaResult.noConfusion har'
          · intro e' nm' er' hje hn' hinc' har'
            cases Option.some.inj hje
            rw [har] at har'
            cases ManaResult.err.inj har'
            refine ⟨rfl, rfl, rfl, ?_⟩
            cases hrj : er.responseJSON with
            | none =>
              refine ⟨"", by simp [scryErrMsg, hrj], ?_⟩
              intro d hd
              exact Option.noConfusion hd
            | some dopt =>
              refine ⟨" - " ++ jsShowOpt dopt,
                by simp [scryErrMsg, hrj, String.append_assoc], ?_⟩
              intro d hd
              cases Option.some.inj hd
              rfl
        | ok cost =>
          rw [checkScryfall_of_manacost_ok m i api e nm cost hj hn hinc har]
          by_cases htr : jsTruthyStr cost = true
          · rw [if_pos htr]
            obtain ⟨c0, hc0, hc0ne⟩ := (jsTruthyStr_iff cost).mp htr
            subst hc0
            refine ⟨?_, rfl, ?_, ?_⟩
            · exact ⟨fun _ => ⟨e, nm, c0, rfl, hn, hinc, har, hc0ne⟩, fun _ => rfl⟩
            · intro e' nm' c hje hn' hinc' har' hne
              cases Option.some.inj hje
              rw [har] at har'
              cases Option.some.inj (ManaResult.ok.inj har')
              rfl
            · intro e' nm' er' hje hn' hinc' har'
              cases Option.some.inj hje
              rw [har] at har'
              exact ManaResult.noConfusion har'
          · rw [if_neg htr]
            refine ⟨?_, rfl, ?_, ?_⟩
            · constructor
              · intro h
                exact absurd h (by simp)
              · rintro ⟨e', nm', c, hje, hn', hinc', har', hne⟩
                cases Option.some.inj hje
                rw [har] at har'
                cases ManaResult.ok.inj har'
                exact absurd ((jsTruthyStr_iff _).mpr ⟨c, rfl, hne⟩) htr
            · intro e' nm' c hje hn' hinc' har' hne
              cases Option.some.inj hje
              rw [har] at har'
              cases ManaResult.ok.inj har'
              exact absurd ((jsTruthyStr_iff _).mpr ⟨c, rfl, hne⟩) htr
            · intro e' nm' er' hje hn' hinc' har'
              cases Option.some.inj hje
              rw [har] at har'
              exact ManaResult.noConfusion har'
      · rw [checkScryfall_of_not_manacost m i api e nm hj hn hinc]
        refine ⟨?_, rfl, ?_, ?_⟩
        · constructor
          · intro h
            exact absurd h (by simp [noEffects])
          · rintro ⟨e', nm', c, hje, hn', hinc', har', hne⟩
            cases Option.some.inj hje
            rw [hn] at hn'
            cases Option.some.inj hn'
            exact absurd hinc' hinc
        · intro e' nm' c hje hn' hinc' har' hne
          cases Option.some.inj hje
          rw [hn] at hn'
          cases Option.some.inj hn'
          exact absurd hinc' hinc
        · intro e' nm' er' hje hn' hinc' har'
          cases Option.some.inj hje
          rw [hn] at hn'
          cases Option.some.inj hn'
          exact absurd hinc' hinc

/-- C6 witness: with the mana-cost box selected, an always-successful
lookup writes the returned cost and fires the re-render hook. -/
theorem checkScryfall_effects_spec_witness :
    (checkScryfall [sampleEntry] 0 sampleApi).fieldWrite = some "ok:2WW" ∧
    (checkScryfall [sampleEntry] 0 sampleApi).textEditedCalled = true := by
  have h := checkScryfall_effects_spec [sampleEntry] 0 sampleApi
  refine ⟨h.2.2.1 sampleEntry "Mana Cost" "ok:2WW" rfl rfl (by decide) rfl
      (by decide), ?_⟩
  exact h.1.mpr ⟨sampleEntry, "Mana Cost", "ok:2WW", rfl, rfl, by decide, rfl,
    by decide⟩

/-- C10 witness: on a singleton mapping with a named entry at index 0
the handler does not throw, and at the out-of-range index 1 it throws
and issues no request. -/
theorem checkScryfall_throw_iff_witness :
    (checkScryfall [sampleEntry] 0 sampleApi).threw = false ∧
    (checkScryfall [sampleEntry] 1 sampleApi).request = none :=
  ⟨(checkScryfall_throw_iff [sampleEntry] 0 sampleApi).1.mpr
      ⟨le_refl 0, by decide, sampleEntry, rfl, rfl⟩,
   (checkScryfall_throw_iff [sampleEntry] 1 sampleApi).2 (by decide)⟩


theorem modifyAt_get (l : List TextEntry) (n : Nat) (f : TextEntry → TextEntry) :
    (modifyAt l n f)[n]? = l[n]?.map f := by
  induction l generalizing n with
  | nil => simp [modifyAt]
  | cons e rest ih =>
    cases n with
    | zero => simp [modifyAt]
    | succ k => simpa [modifyAt] using ih k

theorem writeSelectedText_jsIndex (m : List TextEntry) (i : Int) (x : String) :
    jsIndex (writeSelectedText m i x) i =
      (jsIndex m i).map fun e => { e with text := x } := by
  unfold writeSelectedText jsIndex
  by_cases hi : 0 ≤ i
  · simp [hi, modifyAt_get]
  · simp [hi]

theorem inputEvent_jsIndex (s : EditorState) (t : Nat) (x : String)
    (e : TextEntry) (h : jsIndex s.textMap s.selectedIndex = some e) :
    jsIndex (inputEvent s t x).textMap (inputEvent s t x).selectedIndex =
      some { e with text := x } := by
  simp [inputEvent, writeSelectedText_jsIndex, h]

theorem runEvents_cons (s : EditorState) (t : Nat) (x : String)
    (rest : List (Nat × String)) :
    runEvents s ((t, x) :: rest) =
      ((runEvents (inputEvent s t x) rest).1,
        fireBefore s t ++ (runEvents (inputEvent s t x) rest).2) := rfl

theorem fireBefore_of_none (s : EditorState) (t : Nat) (h : s.timer = none) :
    fireBefore s t = [] := by
  unfold fireBefore
  rw [h]

theorem fireBefore_of_future (s : EditorState) (t d : Nat)
    (h : s.timer = some d) (hlt : t < d) : fireBefore s t = [] := by
  unfold fireBefore
  rw [h]
  exact if_neg (Nat.not_le.mpr hlt)

theorem runEvents_no_requests (evs : List (Nat × String)) :
    ∀ s : EditorState, gapsUnderDebounce evs = true →
    (∀ t x rest d, evs = (t, x) :: rest → s.timer = some d → t < d) →
    (runEvents s evs).2 = [] := by
  induction evs with
  | nil =>
    intro s _ _
    rfl
  | cons p rest ih =>
    intro s hg hh
    obtain ⟨t, x⟩ := p
    rw [runEvents_cons]
    have hfb : fireBefore s t = [] := by
      cases hst : s.timer with
      | none => exact fireBefore_of_none s t hst
      | some d => exact fireBefore_of_future s t d hst (hh t x rest d rfl hst)
    rw [hfb]
    simp only [List.nil_append]
    apply ih (inputEvent s t x)
    · cases rest with
      | nil => rfl
      | cons q rest2 =>
        obtain ⟨t2, x2⟩ := q
        simp only [gapsUnderDebounce, Bool.and_eq_true] at hg ⊢
        exact hg.2
    · intro t2 x2 rest2 d heq hst
      have hd : d = t + 1000 := by
        simp [inputEvent] at hst
        omega
      subst heq
      simp only [gapsUnderDebounce, Bool.and_eq_true, decide_eq_true_eq] at hg
      omega

theorem runEvents_fst (evs : List (Nat × String)) :
    ∀ s : EditorState, (runEvents s evs).1 = evs.foldl debStep s := by
  induction evs with
  | nil =>
    intro s
    rfl
  | cons p rest ih =>
    intro s
    obtain ⟨t, x⟩ := p
    rw [runEvents_cons]
    simpa [debStep] using ih (inputEvent s t x)

theorem foldl_debStep_entry (pre : List (Nat × String)) :
    ∀ (s : EditorState) (e : TextEntry),
    jsIndex s.textMap s.selectedIndex = some e →
    ∃ e1, jsIndex (pre.foldl debStep s).textMap
        (pre.foldl debStep s).selectedIndex = some e1 ∧ e1.name = e.name := by
  induction pre with
  | nil =>
    intro s e h
    exact ⟨e, h, rfl⟩
  | cons p rest ih =>
    intro s e h
    obtain ⟨t, x⟩ := p
    simp only [List.foldl_cons, debStep]
    obtain ⟨e1, hj1, hn1⟩ :=
      ih (inputEvent s t x) { e with text := x } (inputEvent_jsIndex s t x e h)
    exact ⟨e1, hj1, hn1⟩

/-- C5: for a nonempty chronological burst of input events on the
mana-cost field whose consecutive gaps are all under the 1-second
debounce window, no lookup at all is issued during the burst (every
event cancels its predecessor's timer), and the single timer still
pending afterwards fires exactly one lookup whose query is the last
entered text. -/
theorem debounce_single_lookup (s0 : EditorState)
    (evs pre : List (Nat × String)) (t : Nat) (x : String)
    (e : TextEntry) (nm : String)
    (htimer : s0.timer = none)
    (hgaps : gapsUnderDebounce evs = true)
    (hlast : evs = pre ++ [(t, x)])
    (hsel : jsIndex s0.textMap s0.selectedIndex = some e)
    (hnm : e.name = some nm)
    (hmc : strIncludes nm "Mana Cost" = true) :
    (runEvents s0 evs).2 = [] ∧ finalFire (runEvents s0 evs).1 = [x] := by
  constructor
  · apply runEvents_no_requests evs s0 hgaps
    intro t1 x1 rest d _ hst
    rw [htimer] at hst
    exact Option.noConfusion hst
  · rw [runEvents_fst evs s0, hlast, List.foldl_append]
    simp only [List.foldl_cons, List.foldl_nil, debStep]
    obtain ⟨e1, hj1, hn1⟩ := foldl_debStep_entry pre s0 e hsel
    have hj2 := inputEvent_jsIndex (pre.foldl debStep s0) t x e1 hj1
    have hfr : fireRequest (inputEvent (pre.foldl debStep s0) t x) = some x := by
      unfold fireRequest scryfallRequest
      simp [hj2, hn1, hnm, hmc]
    have ht : (inputEvent (pre.foldl debStep s0) t x).timer = some (t + 1000) :=
      rfl
    simp [finalFire, ht, hfr]

/-- C5 witness: three rapid edits produce no lookup during the burst
and exactly one afterwards, with the last entered text. -/
theorem debounce_single_lookup_witness :
    (runEvents sampleEditor sampleEvents).2 = [] ∧
    finalFire (runEvents sampleEditor sampleEvents).1 = ["2W"] :=
  debounce_single_lookup sampleEditor sampleEvents [(0, "1"), (400, "1W")]
    900 "2W" { name := some "Mana Cost", text := "" } "Mana Cost"
    rfl (by decide) rfl rfl rfl (by decide)
